/-
Verification of the Altman Z-Scraper repository against its design
specification.  The Python sources (app/sec_client.py, app/calculator.py,
app/main.py) are shallowly embedded below: strings are lists of characters,
Python floats are modelled as exact rationals, fallible code returns Option.
-/
import Mathlib

set_option linter.unusedVariables false
set_option maxRecDepth 100000

/- The Batteries rational-number operations are `@[irreducible]`, which
blocks `decide`-style evaluation of the executable definitions below; they
are restored to their normal reducibility for this file. -/
attribute [local semireducible] Rat.mul Rat.add Rat.sub Rat.inv Rat.ofScientific

/-! ## Character-level helpers (Python `str` primitives) -/

/-- Whitespace characters recognised by Python `str.strip` and by the regex
class used in the extraction patterns (ASCII fragment). -/
def isWsC (c : Char) : Bool :=
  c = ' ' || c = '\t' || c = '\n' || c = '\r' || c = '\x0b' || c = '\x0c'

/-- Characters accepted by the capture class of the extraction regexes:
digits, the thousands separator and parentheses. -/
def isGroupC (c : Char) : Bool :=
  c.isDigit || c = ',' || c = '(' || c = ')'

/-- ASCII lowercasing of one character, modelling `str.lower` on the ASCII
texts produced from the filings. -/
def lowerChar (c : Char) : Char :=
  if 'A' ≤ c ∧ c ≤ 'Z' then Char.ofNat (c.toNat + 32) else c

/-- Lowercase an entire character list (model of `text.lower()`). -/
def lowerL (cs : List Char) : List Char := cs.map lowerChar

/-- Trim leading and trailing whitespace (model of `str.strip()`). -/
def trimWs (cs : List Char) : List Char :=
  ((cs.dropWhile isWsC).reverse.dropWhile isWsC).reverse

/-- Consume the literal word `w` at the head of `cs`, returning the remaining
suffix when `cs` starts with `w`. -/
def wordAt : List Char → List Char → Option (List Char)
  | [], cs => some cs
  | _ :: _, [] => none
  | w :: ws, c :: cs => if c = w then wordAt ws cs else none

/-- Substring containment (model of Python's `needle in haystack`). -/
def containsSub (nd : List Char) : List Char → Bool
  | [] => (wordAt nd []).isSome
  | c :: t => (wordAt nd (c :: t)).isSome || containsSub nd t

/-! ## Model of Python `float(str)` on its finite decimal fragment

`float()` is modelled on finite literals over ASCII text: optional sign,
digit groups that may carry single underscore separators strictly between
digits (PEP 515), an optional decimal point, an optional exponent part, and
surrounding whitespace, returning an exact rational.  The letter-named
special forms (`inf`, `infinity`, `nan`), which produce IEEE special values
no rational can carry, are outside the model: on strings containing their
letters the model returns `none` while CPython returns a non-finite float,
and every statement drawn from this model is scoped to strings without
those letters (`floatSpecialChars` below).  The extractor's capture class
only emits digits, commas, parentheses and dots, on which the model is
exact. -/

/-- Numeric value of a digit string. -/
def digitsVal (ds : List Char) : Nat :=
  ds.foldl (fun a c => a * 10 + (c.toNat - '0'.toNat)) 0

/-- Continuation of a digit group: further digits, or a single underscore
followed by a digit (PEP 515); an underscore not followed by a digit stops
the group before the underscore, so it is left over and fails the grammar. -/
def digitsRest : List Char → List Char × List Char
  | [] => ([], [])
  | c :: cs =>
    if c.isDigit then
      let p := digitsRest cs
      (c :: p.1, p.2)
    else if c = '_' then
      match cs with
      | [] => ([], [c])
      | d :: cs2 =>
        if d.isDigit then
          let p := digitsRest cs2
          (d :: p.1, p.2)
        else ([], c :: cs)
    else ([], c :: cs)

/-- A digit group as accepted by CPython `float`: it must start with a
digit; returns the digits (underscore separators removed) and the rest. -/
def digitsGroup : List Char → List Char × List Char
  | [] => ([], [])
  | c :: cs =>
    if c.isDigit then
      let p := digitsRest cs
      (c :: p.1, p.2)
    else ([], c :: cs)

/-- A plain digit run without underscore support: the digit-group scanner of
the spec's decimal-number sub-contract. -/
def decimalPair (cs : List Char) : List Char × List Char :=
  (cs.takeWhile Char.isDigit, cs.drop (cs.takeWhile Char.isDigit).length)

/-- Strip an optional leading sign, returning the given positive or negative
multiplier together with the remaining characters. -/
def signSplit {α : Type} (pos neg : α) : List Char → α × List Char
  | '+' :: r => (pos, r)
  | '-' :: r => (neg, r)
  | cs => (pos, cs)

/-- Fractional part: a digit group after a decimal point, scanned by `dg`;
no point means an empty fractional part. -/
def fracSplit (dg : List Char → List Char × List Char) : List Char → List Char × List Char
  | '.' :: r => dg r
  | cs => ([], cs)

/-- The exponent part of a literal: nothing, or `e`/`E`, an optional sign
and a digit group scanned by `dg` that must exhaust the string; the mantissa
is scaled by the signed power of ten. -/
def expTail (dg : List Char → List Char × List Char) (mant : ℚ) : List Char → Option ℚ
  | [] => some mant
  | e :: r3 =>
    if e = 'e' ∨ e = 'E' then
      let esg := signSplit (1 : ℤ) (-1 : ℤ) r3
      let edg := dg esg.2
      if edg.1.isEmpty ∨ edg.2 ≠ [] then none
      else some (mant * (10 : ℚ) ^ (esg.1 * (digitsVal edg.1 : ℤ)))
    else none

/-- Parse a finite literal as CPython `float` does (underscore separators
included), or fail. -/
def pyFloat? (cs0 : List Char) : Option ℚ :=
  let cs := trimWs cs0
  let sg := signSplit (1 : ℚ) (-1 : ℚ) cs
  let ipg := digitsGroup sg.2
  let fpr := fracSplit digitsGroup ipg.2
  if ipg.1.isEmpty && fpr.1.isEmpty then none
  else
    expTail digitsGroup
      (sg.1 * ((digitsVal ipg.1 : ℚ) + (digitsVal fpr.1 : ℚ) / (10 : ℚ) ^ fpr.1.length))
      fpr.2

/-- Parse a plain decimal/scientific literal — the "decimal number" of the
spec's numeric parsing sub-contract, with no underscore separators.  It
differs from `pyFloat?` exactly at the three digit-group sites. -/
def decimalFloat? (cs0 : List Char) : Option ℚ :=
  let cs := trimWs cs0
  let sg := signSplit (1 : ℚ) (-1 : ℚ) cs
  let ipg := decimalPair sg.2
  let fpr := fracSplit decimalPair ipg.2
  if ipg.1.isEmpty && fpr.1.isEmpty then none
  else
    expTail decimalPair
      (sg.1 * ((digitsVal ipg.1 : ℚ) + (digitsVal fpr.1 : ℚ) / (10 : ℚ) ^ fpr.1.length))
      fpr.2

/-- Characters outside the model of `float()`: the underscore separator
distinguishes `float()` from the spec's plain decimal parse, and the letters
of the special forms `inf`, `infinity`, `nan` (either case) mark strings on
which no finite-rational model is faithful. -/
def floatSpecialChars : List Char := '_' :: "inftyaINFTYA".toList

/-! ## `parse_number` (app/sec_client.py, lines 98-124) -/

/-- Model of `parse_number`: remove commas and dollar signs, strip
whitespace, detect enclosing parentheses as negation, parse the remainder
with `float()`; any parse failure yields `none` (the Python code catches
`ValueError`/`AttributeError` and returns `None`). -/
def parseNumberL (cs : List Char) : Option ℚ :=
  let cleaned := trimWs ((cs.filter (fun c => c ≠ ',')).filter (fun c => c ≠ '$'))
  let isNeg := cleaned.head? = some '(' ∧ cleaned.getLast? = some ')'
  let core := if isNeg then (cleaned.drop 1).dropLast else cleaned
  match pyFloat? core with
  | none => none
  | some v => some (if isNeg then -v else v)

/-- String-level wrapper for `parse_number`. -/
def parse_number (s : String) : Option ℚ := parseNumberL s.toList

/-- Modelled from the spec: the numeric parsing sub-contract of §4.1
("strip thousands separators and currency symbol; detect enclosing
parentheses as negation; parse the remaining literal as a decimal number;
fail (absent) on any non-numeric remainder").  Stripping covers the
separators, the currency symbol and surrounding whitespace; "parse as a
decimal number" is the plain decimal parser `decimalFloat?`, without
`float()`'s underscore separators. -/
def parseNumber_spec (s : String) : Option ℚ :=
  let stripped := trimWs ((s.toList.filter (fun c => c ≠ ',')).filter (fun c => c ≠ '$'))
  let negated := stripped.head? = some '(' ∧ stripped.getLast? = some ')'
  let literal := if negated then (stripped.drop 1).dropLast else stripped
  match decimalFloat? literal with
  | none => none
  | some v => some (if negated then -v else v)

/-! ## The extraction regexes (app/sec_client.py, lines 148-177)

Every one of the eleven patterns in the `patterns` table has the same shape:

  LABEL  `[^\d]*`  `[\$]?`  `\s*`  `([\d,\(\)]+\.?\d*)`  `\s*`  `(?:million|thousand|billion)?`

where LABEL is a fixed sequence of lowercase words separated by `\s+`.  A
pattern is therefore represented by its list of label words, and the shared
tail is implemented once.  The matcher below reproduces the leftmost/greedy
backtracking semantics of `re.finditer` for this pattern shape:

* the label words are literal and separated by one-or-more whitespace, so
  their match is deterministic;
* the greedy filler `[^\d]*` runs to the first digit, where the capture
  group starts (taking its maximal `[\d,()]` run, then an optional `.` with
  trailing digits); when no digit follows the label at all, backtracking
  places the group at the last `[\d,()]`-class character instead (such
  digit-free groups never survive `parse_number`);
* after the group, greedy `\s*` and the ordered optional alternation
  `million|thousand|billion` close the match. -/

/-- Match the label words at the head of `cs` (words separated by one or
more whitespace characters), returning the suffix after the label. -/
def matchLabel : List (List Char) → List Char → Option (List Char)
  | [], cs => some cs
  | [w], cs => wordAt w cs
  | w :: ws, cs =>
    match wordAt w cs with
    | none => none
    | some cs1 =>
      let sp := cs1.takeWhile isWsC
      if sp.isEmpty then none else matchLabel ws (cs1.drop sp.length)

/-- Consume the optional trailing scale-word alternation
`(?:million|thousand|billion)?`, alternatives tried in the listed order. -/
def tryScale (cs : List Char) : List Char :=
  match wordAt "million".toList cs with
  | some r => r
  | none =>
    match wordAt "thousand".toList cs with
    | some r => r
    | none =>
      match wordAt "billion".toList cs with
      | some r => r
      | none => cs

/-- Read the capture group `[\d,\(\)]+\.?\d*` starting at the head of `cs`
(which must be a class character), then the trailing `\s*` and optional
scale word.  Returns the captured group and the suffix after the match. -/
def readGroup (cs : List Char) : Option (List Char × List Char) :=
  match cs with
  | [] => none
  | c :: _ =>
    if isGroupC c then
      let run := cs.takeWhile isGroupC
      let r1 := cs.drop run.length
      let gr : List Char × List Char :=
        match r1 with
        | '.' :: r =>
          (run ++ '.' :: r.takeWhile Char.isDigit, r.drop (r.takeWhile Char.isDigit).length)
        | _ => (run, r1)
      let r3 := gr.2.drop (gr.2.takeWhile isWsC).length
      some (gr.1, tryScale r3)
    else none

/-- Match the shared pattern tail after the label: greedy `[^\d]*` filler up
to the first digit, or — when no digit remains — the backtracking position at
the last `[\d,()]`-class character. -/
def matchTail (cs : List Char) : Option (List Char × List Char) :=
  let nd := cs.takeWhile (fun c => !c.isDigit)
  if nd.length < cs.length then readGroup (cs.drop nd.length)
  else
    match cs.reverse.findIdx? isGroupC with
    | none => none
    | some j => readGroup (cs.drop (cs.length - 1 - j))

/-- Attempt an anchored match of one pattern at the head of `s`, returning
the captured group and the suffix after the whole match. -/
def matchAt (pat : List (List Char)) (s : List Char) : Option (List Char × List Char) :=
  match matchLabel pat s with
  | none => none
  | some cs => matchTail cs

/-- Scan for all non-overlapping matches left to right (`re.finditer`):
on a successful match continue at the match end, otherwise advance one
character.  Each element pairs the captured group with the full matched text
(`match.group(1)` and `match.group(0)`).  The fuel argument is the length of
the scanned text; a successful match always consumes at least the label, so
this fuel is never exhausted. -/
def scanAux (pat : List (List Char)) : Nat → List Char → List (List Char × List Char)
  | 0, _ => []
  | _ + 1, [] => []
  | n + 1, s@(_ :: cs) =>
    match matchAt pat s with
    | some (g, rest) => (g, s.take (s.length - rest.length)) :: scanAux pat n rest
    | none => scanAux pat n cs

/-- All matches of one pattern in `t` (model of `re.finditer(pattern, t)`). -/
def scanMatches (pat : List (List Char)) (t : List Char) : List (List Char × List Char) :=
  scanAux pat t.length t

/-! ## Candidate values and field selection (app/sec_client.py, lines 179-201) -/

/-- Scale multiplier application: the Python loop checks
`'million' in match_text`, then `'thousand'`, then `'billion'` — substring
containment in the whole matched text `match.group(0)`, already lowercase. -/
def applyScale (matchText : List Char) (v : ℚ) : ℚ :=
  if containsSub "million".toList matchText then v * 1000000
  else if containsSub "thousand".toList matchText then v * 1000
  else if containsSub "billion".toList matchText then v * 1000000000
  else v

/-- Candidate values of one pattern over the text: for every match, parse the
captured group; on success apply the scale multiplier, then take the absolute
value; failed parses are dropped (`values_found` in the source). -/
def valuesFound (t : List Char) (pat : List (List Char)) : List ℚ :=
  (scanMatches pat t).filterMap fun gm =>
    match parseNumberL gm.1 with
    | none => none
    | some v => some |applyScale gm.2 v|

/-- Model of Python `max` on a list, `none` on the empty list. -/
def pyMax : List ℚ → Option ℚ
  | [] => none
  | x :: xs => some (xs.foldl max x)

/-- Try the pattern variants in order: the first variant with a non-empty
`values_found` contributes `max(values_found)` and the loop breaks; variants
with no successfully parsed candidate fall through to the next variant. -/
def firstVariant (t : List Char) : List (List (List Char)) → Option ℚ
  | [] => none
  | p :: ps =>
    let vs := valuesFound t p
    if vs.isEmpty then firstVariant t ps else pyMax vs

/-- The seven base fields of the `patterns` table. -/
inductive FieldKey where
  | current_assets | current_liabilities | total_assets | retained_earnings
  | operating_income | total_liabilities | sales
  deriving DecidableEq

/-- Dictionary key of a field. -/
def fieldName : FieldKey → String
  | .current_assets => "current_assets"
  | .current_liabilities => "current_liabilities"
  | .total_assets => "total_assets"
  | .retained_earnings => "retained_earnings"
  | .operating_income => "operating_income"
  | .total_liabilities => "total_liabilities"
  | .sales => "sales"

/-- The ordered label-pattern variants of each field, transcribed from the
`patterns` dictionary (each entry is the label-word part of one regex; the
rest of each regex is the shared tail described above). -/
def patternsFor : FieldKey → List (List (List Char))
  | .current_assets =>
    [["total".toList, "current".toList, "assets".toList],
     ["current".toList, "assets".toList]]
  | .current_liabilities =>
    [["total".toList, "current".toList, "liabilities".toList],
     ["current".toList, "liabilities".toList]]
  | .total_assets =>
    [["total".toList, "assets".toList]]
  | .retained_earnings =>
    [["retained".toList, "earnings".toList],
     ["accumulated".toList, "retained".toList, "earnings".toList]]
  | .operating_income =>
    [["operating".toList, "income".toList],
     ["income".toList, "from".toList, "operations".toList]]
  | .total_liabilities =>
    [["total".toList, "liabilities".toList]]
  | .sales =>
    [["net".toList, "sales".toList],
     ["total".toList, "revenue".toList],
     ["net".toList, "revenue".toList],
     ["total".toList, "net".toList, "revenue".toList]]

/-- Selected value of one field over the (already lowercased) text. -/
def selectField (k : FieldKey) (t : List Char) : Option ℚ :=
  firstVariant t (patternsFor k)

/-! ## `extract_financial_data_from_html` (app/sec_client.py, lines 127-217)

`BeautifulSoup(html).get_text()` is modelled as the identity on markup-free
text (markup stripping is an upstream collaborator concern in the design;
the spec requires the plain-text fallback), and `text.lower()` by ASCII
lowercasing.  The result dictionary is modelled as an association list in
Python dict insertion order. -/

/-- Extraction over the character list: select all seven fields; if every
field produced a value, return the dictionary extended with
`working_capital = current_assets - current_liabilities`, otherwise `None`. -/
def extractL (raw : List Char) : Option (List (String × ℚ)) :=
  let t := lowerL raw
  match selectField .current_assets t, selectField .current_liabilities t,
        selectField .total_assets t, selectField .retained_earnings t,
        selectField .operating_income t, selectField .total_liabilities t,
        selectField .sales t with
  | some ca, some cl, some ta, some re, some oi, some tl, some sa =>
    some [("current_assets", ca), ("current_liabilities", cl),
          ("total_assets", ta), ("retained_earnings", re),
          ("operating_income", oi), ("total_liabilities", tl),
          ("sales", sa), ("working_capital", ca - cl)]
  | _, _, _, _, _, _, _ => none

/-- String-level wrapper matching the source entry point. -/
def extract_financial_data_from_html (s : String) : Option (List (String × ℚ)) :=
  extractL s.toList

/-! ## `calculate_altman_z_score` (app/calculator.py) -/

/-- The three interpretation zones (`ZoneType` in the source). -/
inductive ZoneType where
  | SAFE | GREY | DISTRESS
  deriving DecidableEq

/-- String value of a zone (the `str`-valued enum members). -/
def ZoneType.value : ZoneType → String
  | .SAFE => "Safe Zone"
  | .GREY => "Grey Zone"
  | .DISTRESS => "Distress Zone"

/-- Zone classification applied to the (unrounded) score, transcribed from
the `if z_score > 2.99 / elif z_score > 1.81 / else` chain. -/
def zClassify (z : ℚ) : ZoneType :=
  if z > 2.99 then .SAFE else if z > 1.81 then .GREY else .DISTRESS

/-- Python `round(q, n)` on exact rationals: round half to even at the n-th
decimal place (representation error of binary floats is out of scope; no
claim depends on the rounded presentation values). -/
def pyRound (q : ℚ) (n : Nat) : ℚ :=
  let s := q * (10 : ℚ) ^ n
  let f : ℤ := ⌊s⌋
  let r := s - (f : ℚ)
  let k : ℤ :=
    if r < 1 / 2 then f
    else if 1 / 2 < r then f + 1
    else if f % 2 = 0 then f else f + 1
  (k : ℚ) / (10 : ℚ) ^ n

/-- The dictionary returned by `calculate_altman_z_score`. -/
structure ZScoreDict where
  z_score : ℚ
  x1 : ℚ
  x2 : ℚ
  x3 : ℚ
  x4 : ℚ
  x5 : ℚ
  zone : ZoneType
  working_capital : ℚ
  total_assets : ℚ
  retained_earnings : ℚ
  operating_income : ℚ
  market_value_equity : ℚ
  total_liabilities : ℚ
  sales : ℚ
  deriving DecidableEq

/-- Model of `calculate_altman_z_score`: ratios default to 0.0 when their
denominator is exactly zero, the score is the weighted sum, the zone is the
strict-threshold classification of the unrounded score, and the presentation
values are rounded (score to 4 places, ratios to 6). -/
def calculate_altman_z_score (working_capital total_assets retained_earnings
    operating_income market_value_equity total_liabilities sales : ℚ) : ZScoreDict :=
  let x1 : ℚ := if total_assets ≠ 0 then working_capital / total_assets else 0
  let x2 : ℚ := if total_assets ≠ 0 then retained_earnings / total_assets else 0
  let x3 : ℚ := if total_assets ≠ 0 then operating_income / total_assets else 0
  let x4 : ℚ := if total_liabilities ≠ 0 then market_value_equity / total_liabilities else 0
  let x5 : ℚ := if total_assets ≠ 0 then sales / total_assets else 0
  let z_score : ℚ := 1.2 * x1 + 1.4 * x2 + 3.3 * x3 + 0.6 * x4 + 1.0 * x5
  let zone := zClassify z_score
  { z_score := pyRound z_score 4
    x1 := pyRound x1 6, x2 := pyRound x2 6, x3 := pyRound x3 6
    x4 := pyRound x4 6, x5 := pyRound x5 6
    zone := zone
    working_capital := working_capital, total_assets := total_assets
    retained_earnings := retained_earnings, operating_income := operating_income
    market_value_equity := market_value_equity, total_liabilities := total_liabilities
    sales := sales }

/-! ## Request handler `get_zscore` (app/main.py, lines 37-138)

The network-facing collaborators are injected as values, following the
design's capability-injection note: the identifier resolution result, the
located filing and its fetched document text, and the market data result.
Everything after those calls is transcribed from the handler body. -/

/-- Resolution result of `get_cik_and_ticker`. -/
structure CikTicker where
  cik : String
  ticker : String
  deriving DecidableEq

/-- Metadata of the located 10-Q filing (`get_latest_10q_filing`). -/
structure Filing10Q where
  filingDate : String
  accessionNumber : String
  deriving DecidableEq

/-- Result dictionary of `get_stock_data` (app/stock_client.py): the market
value of equity is price times shares outstanding. -/
structure StockData where
  price : ℚ
  shares_outstanding : ℚ
  market_value_equity : ℚ
  deriving DecidableEq

/-- Model of `get_financial_data_from_10q` after the injected filing lookup
and document fetch: absent filing or failed extraction give `None`;
otherwise the extracted dictionary is returned together with the filing
metadata (in Python the dict additionally gains the string entries
`filing_date` and `accession_number`, whose keys are disjoint from the
numeric fields checked by the handler; they are modelled by the pairing). -/
def get_financial_data_from_10q (filing : Option Filing10Q) (docText : String) :
    Option (List (String × ℚ) × Filing10Q) :=
  match filing with
  | none => none
  | some f =>
    match extract_financial_data_from_html docText with
    | none => none
    | some data => some (data, f)

/-- The `required_fields` list validated by the handler (app/main.py,
lines 70-71) — note it checks `working_capital` and omits the two current
items, unlike the extractor's own seven-field list. -/
def required_fields_main : List String :=
  ["working_capital", "total_assets", "retained_earnings",
   "operating_income", "total_liabilities", "sales"]

/-- Comma-space join (`', '.join(missing_fields)`). -/
def joinComma : List String → String
  | [] => ""
  | [s] => s
  | s :: t => s ++ ", " ++ joinComma t

/-- The response model of the endpoint (`ZScoreResponse` in app/models.py). -/
structure ZScoreResponse where
  company : String
  ticker : String
  z_score : ℚ
  zone : String
  x1 : ℚ
  x2 : ℚ
  x3 : ℚ
  x4 : ℚ
  x5 : ℚ
  working_capital : ℚ
  total_assets : ℚ
  retained_earnings : ℚ
  operating_income : ℚ
  market_value_equity : ℚ
  total_liabilities : ℚ
  sales : ℚ
  filing_date : String
  stock_price : ℚ
  shares_outstanding : ℚ
  deriving DecidableEq

/-- Outcome of one request: a response, or an HTTPException with status code
and detail string. -/
inductive Outcome where
  | ok : ZScoreResponse → Outcome
  | httpError : Nat → String → Outcome
  deriving DecidableEq

/-- Model of the `get_zscore` handler over the injected collaborator
results.  The final fallback arm models the `KeyError` a missing dictionary
entry would raise, caught by the outer handler as a 500 internal error; it is
unreachable because the preceding `missing_fields` check guards it. -/
def get_zscore (company : String) (resolved : Option CikTicker)
    (filing : Option Filing10Q) (docText : String)
    (stock : Option StockData) : Outcome :=
  match resolved with
  | none =>
    .httpError 404 ("Company '" ++ company ++ "' not found. Please provide a valid ticker symbol or company name.")
  | some ct =>
    match get_financial_data_from_10q filing docText with
    | none =>
      .httpError 404 ("Could not retrieve 10-Q filing data for '" ++ company ++ "'. The company may not have filed a 10-Q recently.")
    | some (data, f) =>
      let missing := required_fields_main.filter fun k => (List.lookup k data).isNone
      if missing.isEmpty then
        match stock with
        | none =>
          .httpError 404 ("Could not retrieve stock price data for ticker '" ++ ct.ticker ++ "'. Please verify the ticker symbol is correct.")
        | some sd =>
          match List.lookup "working_capital" data, List.lookup "total_assets" data,
                List.lookup "retained_earnings" data, List.lookup "operating_income" data,
                List.lookup "total_liabilities" data, List.lookup "sales" data with
          | some wc, some ta, some re, some oi, some tl, some sa =>
            let r := calculate_altman_z_score wc ta re oi sd.market_value_equity tl sa
            .ok { company := company, ticker := ct.ticker
                  z_score := r.z_score, zone := r.zone.value
                  x1 := r.x1, x2 := r.x2, x3 := r.x3, x4 := r.x4, x5 := r.x5
                  working_capital := r.working_capital, total_assets := r.total_assets
                  retained_earnings := r.retained_earnings
                  operating_income := r.operating_income
                  market_value_equity := r.market_value_equity
                  total_liabilities := r.total_liabilities, sales := r.sales
                  filing_date := f.filingDate, stock_price := sd.price
                  shares_outstanding := sd.shares_outstanding }
          | _, _, _, _, _, _ =>
            .httpError 500 "Internal server error: missing financial field"
      else
        .httpError 500 ("Missing required financial data fields: " ++ joinComma missing)

/-! ## Concrete filing texts used by the theorems below -/

/-- A filing text containing all seven labels with plain values. -/
def exSeven : String :=
  "Total current assets 500 Total current liabilities 200 Total assets 1000 Retained earnings 300 Operating income 100 Total liabilities 400 Net sales 900"

/-- The dictionary extracted from `exSeven`. -/
def exSevenDict : List (String × ℚ) :=
  [("current_assets", 500), ("current_liabilities", 200), ("total_assets", 1000),
   ("retained_earnings", 300), ("operating_income", 100), ("total_liabilities", 400),
   ("sales", 900), ("working_capital", 300)]

/-- Like `exSeven` with the two current items swapped, so that the derived
working capital is negative. -/
def exNegWc : String :=
  "Total current assets 200 Total current liabilities 500 Total assets 1000 Retained earnings 300 Operating income 100 Total liabilities 400 Net sales 900"

/-- The dictionary extracted from `exNegWc`. -/
def exNegWcDict : List (String × ℚ) :=
  [("current_assets", 200), ("current_liabilities", 500), ("total_assets", 1000),
   ("retained_earnings", 300), ("operating_income", 100), ("total_liabilities", 400),
   ("sales", 900), ("working_capital", -300)]

/-- A filing text containing six of the seven labels (every sales variant is
absent). -/
def exSix : String :=
  "Total current assets 500 Total current liabilities 200 Total assets 1000 Retained earnings 300 Operating income 100 Total liabilities 400"

/-- The spec's own test text: the current liabilities figure is written with
the parenthesized-negative convention. -/
def exParen : String :=
  "Total current assets $1,234,567 Total current liabilities $(234,567) Total assets 1000 Retained earnings 300 Operating income 100 Total liabilities 400 Net sales 900"

/-- A text in which the `total assets` label appears twice, with values 100
and 500 and no scale words. -/
def exTwice : String := "Total assets 100 and total assets 500"

/-- The spec's scale-word example text. -/
def exScale : String := "Total assets $45.2 million"

/-- A text whose scale word sits in the filler between the label and the
number rather than trailing the number. -/
def exScaleFiller : String := "Total assets in millions 2"

/-- Collaborator values used when exercising the request handler. -/
def exCik : CikTicker := { cik := "0000320193", ticker := "ACME" }

/-- Filing metadata used when exercising the request handler. -/
def exFiling : Filing10Q := { filingDate := "2024-01-01", accessionNumber := "000032019324000001" }

/-- Market data used when exercising the request handler. -/
def exStock : StockData := { price := 10, shares_outstanding := 100, market_value_equity := 1000 }

/-! ## Helper lemmas on `pyMax`, candidate lists and variant selection -/

theorem le_foldl_max (x : ℚ) (xs : List ℚ) : x ≤ xs.foldl max x := by
  induction xs generalizing x with
  | nil => exact le_refl x
  | cons c t ih => exact le_trans (le_max_left x c) (ih (max x c))

theorem foldl_max_mem (x : ℚ) (xs : List ℚ) : xs.foldl max x = x ∨ xs.foldl max x ∈ xs := by
  induction xs generalizing x with
  | nil => exact Or.inl rfl
  | cons c t ih =>
    rcases ih (max x c) with h | h
    · rcases max_choice x c with hm | hm
      · exact Or.inl (by rw [List.foldl_cons, h, hm])
      · exact Or.inr (by rw [List.foldl_cons, h, hm]; exact List.mem_cons_self c t)
    · exact Or.inr (List.mem_cons_of_mem c h)

theorem le_foldl_max_of_mem {v : ℚ} {xs : List ℚ} (h : v ∈ xs) :
    ∀ x : ℚ, v ≤ xs.foldl max x := by
  induction xs with
  | nil => cases h
  | cons c t ih =>
    intro x
    rcases List.mem_cons.mp h with rfl | hv
    · exact le_trans (le_max_right x v) (le_foldl_max _ t)
    · exact ih hv (max x c)

/-- Python's `max` on a non-empty list is a member and an upper bound. -/
theorem pyMax_spec {vs : List ℚ} {m : ℚ} (h : pyMax vs = some m) :
    m ∈ vs ∧ ∀ v ∈ vs, v ≤ m := by
  cases vs with
  | nil => cases h
  | cons x xs =>
    have hm : xs.foldl max x = m := by injection h
    subst hm
    refine ⟨?_, ?_⟩
    · rcases foldl_max_mem x xs with h' | h'
      · rw [h']; exact List.mem_cons_self x xs
      · exact List.mem_cons_of_mem _ h'
    · intro v hv
      rcases List.mem_cons.mp hv with rfl | hv'
      · exact le_foldl_max v xs
      · exact le_foldl_max_of_mem hv' x

/-- Every candidate value is an absolute value, hence nonnegative. -/
theorem valuesFound_nonneg {t : List Char} {p : List (List Char)} :
    ∀ v ∈ valuesFound t p, 0 ≤ v := by
  intro v hv
  simp only [valuesFound, List.mem_filterMap] at hv
  obtain ⟨gm, _, hgm⟩ := hv
  cases hp : parseNumberL gm.1 with
  | none => rw [hp] at hgm; cases hgm
  | some w =>
    rw [hp] at hgm
    injection hgm with h'
    rw [← h']
    exact abs_nonneg _

/-- A selected field value is nonnegative. -/
theorem firstVariant_nonneg {t : List Char} :
    ∀ {ps : List (List (List Char))} {v : ℚ}, firstVariant t ps = some v → 0 ≤ v := by
  intro ps
  induction ps with
  | nil => intro v h; cases h
  | cons p ps ih =>
    intro v h
    simp only [firstVariant] at h
    by_cases he : (valuesFound t p).isEmpty
    · rw [if_pos he] at h; exact ih h
    · rw [if_neg he] at h
      exact valuesFound_nonneg _ (pyMax_spec h).1

/-- Variant fall-through: variants whose candidate list is empty are skipped
and the first variant with candidates contributes `max(values_found)`. -/
theorem firstVariant_first {t : List Char} :
    ∀ (ps1 : List (List (List Char))) (p : List (List Char))
      (ps2 : List (List (List Char))),
    (∀ q ∈ ps1, valuesFound t q = []) → valuesFound t p ≠ [] →
    firstVariant t (ps1 ++ p :: ps2) = pyMax (valuesFound t p) := by
  intro ps1
  induction ps1 with
  | nil =>
    intro p ps2 _ hp
    simp only [List.nil_append, firstVariant]
    rw [if_neg]
    simpa using hp
  | cons q qs ih =>
    intro p ps2 hq hp
    have hq0 : valuesFound t q = [] := hq q (List.mem_cons_self q qs)
    simp only [List.cons_append, firstVariant, hq0, List.isEmpty_nil, if_true]
    exact ih p ps2 (fun r hr => hq r (List.mem_cons_of_mem q hr)) hp

/-- Success of the extractor is exactly the simultaneous success of all
seven field selections, and determines the result dictionary. -/
theorem extractL_some_iff (raw : List Char) (m : List (String × ℚ)) :
    extractL raw = some m ↔
      ∃ ca cl ta re oi tl sa : ℚ,
        selectField .current_assets (lowerL raw) = some ca ∧
        selectField .current_liabilities (lowerL raw) = some cl ∧
        selectField .total_assets (lowerL raw) = some ta ∧
        selectField .retained_earnings (lowerL raw) = some re ∧
        selectField .operating_income (lowerL raw) = some oi ∧
        selectField .total_liabilities (lowerL raw) = some tl ∧
        selectField .sales (lowerL raw) = some sa ∧
        m = [("current_assets", ca), ("current_liabilities", cl),
             ("total_assets", ta), ("retained_earnings", re),
             ("operating_income", oi), ("total_liabilities", tl),
             ("sales", sa), ("working_capital", ca - cl)] := by
  simp only [extractL]
  cases h1 : selectField .current_assets (lowerL raw) <;>
  cases h2 : selectField .current_liabilities (lowerL raw) <;>
  cases h3 : selectField .total_assets (lowerL raw) <;>
  cases h4 : selectField .retained_earnings (lowerL raw) <;>
  cases h5 : selectField .operating_income (lowerL raw) <;>
  cases h6 : selectField .total_liabilities (lowerL raw) <;>
  cases h7 : selectField .sales (lowerL raw) <;>
  simp_all
  exact eq_comm



/-! ## Helper lemmas on the float model -/

theorem mem_of_mem_trimWs {c : Char} {cs : List Char} (h : c ∈ trimWs cs) : c ∈ cs := by
  simp only [trimWs, List.mem_reverse] at h
  have h2 := (List.dropWhile_sublist isWsC).subset h
  rw [List.mem_reverse] at h2
  exact (List.dropWhile_sublist isWsC).subset h2

theorem signSplit_snd_subset {α : Type} (pos neg : α) (cs : List Char) :
    (signSplit pos neg cs).2 ⊆ cs := by
  unfold signSplit
  split
  · exact fun x hx => List.mem_cons_of_mem _ hx
  · exact fun x hx => List.mem_cons_of_mem _ hx
  · exact fun x hx => hx

theorem fracSplit_decimalPair_snd_subset (cs : List Char) :
    (fracSplit decimalPair cs).2 ⊆ cs := by
  unfold fracSplit
  split
  · exact fun x hx => List.mem_cons_of_mem _ (List.drop_subset _ _ hx)
  · exact fun x hx => hx

/-- On underscore-free input, the digit-group continuation of `float()` is
the plain digit run. -/
theorem digitsRest_no_underscore : ∀ {cs : List Char}, '_' ∉ cs →
    digitsRest cs = decimalPair cs := by
  intro cs
  induction cs with
  | nil => intro h; rfl
  | cons c cs ih =>
    intro h
    have hc : ¬(c = '_') := fun he => h (by rw [he]; exact List.mem_cons_self _ _)
    have hcs : '_' ∉ cs := fun hx => h (List.mem_cons_of_mem c hx)
    by_cases hd : c.isDigit
    · rw [digitsRest.eq_def]
      simp only [hd, if_true, ih hcs]
      simp [decimalPair, List.takeWhile_cons, hd]
    · rw [digitsRest.eq_def]
      simp only [hd, if_false, hc, ite_false]
      simp [decimalPair, List.takeWhile_cons, hd, hc]

/-- On underscore-free input, the digit group of `float()` is the plain
digit run of the decimal sub-contract. -/
theorem digitsGroup_no_underscore {cs : List Char} (h : '_' ∉ cs) :
    digitsGroup cs = decimalPair cs := by
  cases cs with
  | nil => rfl
  | cons c cs =>
    have hcs : '_' ∉ cs := fun hx => h (List.mem_cons_of_mem c hx)
    by_cases hd : c.isDigit
    · rw [digitsGroup.eq_def]
      simp only [hd, if_true, digitsRest_no_underscore hcs]
      simp [decimalPair, List.takeWhile_cons, hd]
    · rw [digitsGroup.eq_def]
      simp only [hd, if_false, ite_false]
      simp [decimalPair, List.takeWhile_cons, hd]

theorem fracSplit_no_underscore {cs : List Char} (h : '_' ∉ cs) :
    fracSplit digitsGroup cs = fracSplit decimalPair cs := by
  unfold fracSplit
  split
  · exact digitsGroup_no_underscore (fun hx => h (List.mem_cons_of_mem _ hx))
  · rfl

/-- On an underscore-free exponent tail, the two parsers agree. -/
theorem expTail_no_underscore {cs : List Char} (h : '_' ∉ cs) (mant : ℚ) :
    expTail digitsGroup mant cs = expTail decimalPair mant cs := by
  cases cs with
  | nil => rfl
  | cons e r3 =>
    have h4 : '_' ∉ (signSplit (1 : ℤ) (-1 : ℤ) r3).2 :=
      fun hx => h (List.mem_cons_of_mem _ (signSplit_snd_subset _ _ _ hx))
    simp only [expTail, digitsGroup_no_underscore h4]

/-- On strings without underscore separators, `float()` and the plain
decimal parser agree. -/
theorem pyFloat_eq_decimalFloat : ∀ (cs0 : List Char), '_' ∉ cs0 →
    pyFloat? cs0 = decimalFloat? cs0 := by
  intro cs0 h0
  have h1 : '_' ∉ trimWs cs0 := fun hx => h0 (mem_of_mem_trimWs hx)
  have h2 : '_' ∉ (signSplit (1 : ℚ) (-1 : ℚ) (trimWs cs0)).2 :=
    fun hx => h1 (signSplit_snd_subset _ _ _ hx)
  have h3 : '_' ∉ (decimalPair (signSplit (1 : ℚ) (-1 : ℚ) (trimWs cs0)).2).2 :=
    fun hx => h2 (List.drop_subset _ _ hx)
  have h4 : '_' ∉ (fracSplit decimalPair
      (decimalPair (signSplit (1 : ℚ) (-1 : ℚ) (trimWs cs0)).2).2).2 :=
    fun hx => h3 (fracSplit_decimalPair_snd_subset _ hx)
  simp only [pyFloat?, decimalFloat?]
  rw [digitsGroup_no_underscore h2, fracSplit_no_underscore h3]
  by_cases hC : (decimalPair (signSplit (1 : ℚ) (-1 : ℚ) (trimWs cs0)).2).1.isEmpty &&
      (fracSplit decimalPair (decimalPair (signSplit (1 : ℚ) (-1 : ℚ) (trimWs cs0)).2).2).1.isEmpty
  · rw [if_pos hC, if_pos hC]
  · rw [if_neg hC, if_neg hC]
    exact expTail_no_underscore h4 _

/-! ## Claim theorems -/

/-- C4: for all inputs the zone returned by `calculate_altman_z_score` is the
strict-threshold classification of the unrounded score
`1.2·x1 + 1.4·x2 + 3.3·x3 + 0.6·x4 + 1.0·x5`; boundary scores fall into the
lower zone (`z = 2.99` gives Grey, `z = 1.81` gives Distress) while
`z = 2.990001` gives Safe and `z = 1.810001` gives Grey, as exercised on
inputs whose score is exactly `2.99`. -/
theorem zone_strict_thresholds :
    (∀ wc ta re oi mve tl sa : ℚ,
      (calculate_altman_z_score wc ta re oi mve tl sa).zone =
        zClassify (1.2 * (if ta ≠ 0 then wc / ta else 0)
          + 1.4 * (if ta ≠ 0 then re / ta else 0)
          + 3.3 * (if ta ≠ 0 then oi / ta else 0)
          + 0.6 * (if tl ≠ 0 then mve / tl else 0)
          + 1.0 * (if ta ≠ 0 then sa / ta else 0))) ∧
    zClassify 2.99 = ZoneType.GREY ∧ zClassify 2.990001 = ZoneType.SAFE ∧
    zClassify 1.81 = ZoneType.DISTRESS ∧ zClassify 1.810001 = ZoneType.GREY ∧
    (calculate_altman_z_score 0 0 0 0 (299 / 60) 1 0).zone = ZoneType.GREY :=
  ⟨fun _ _ _ _ _ _ _ => rfl, by decide, by decide, by decide, by decide, by decide⟩

/-- C5: when `total_assets = 0` the ratios x1, x2, x3 and x5 are exactly 0,
and when `total_liabilities = 0` the ratio x4 is exactly 0; the zero checks
guard every division, so the (total) function never raises a
division-by-zero fault. -/
theorem division_by_zero_guard :
    (∀ wc re oi mve tl sa : ℚ,
      (calculate_altman_z_score wc 0 re oi mve tl sa).x1 = 0 ∧
      (calculate_altman_z_score wc 0 re oi mve tl sa).x2 = 0 ∧
      (calculate_altman_z_score wc 0 re oi mve tl sa).x3 = 0 ∧
      (calculate_altman_z_score wc 0 re oi mve tl sa).x5 = 0) ∧
    (∀ wc ta re oi mve sa : ℚ,
      (calculate_altman_z_score wc ta re oi mve 0 sa).x4 = 0) := by
  constructor
  · intro wc re oi mve tl sa
    refine ⟨?_, ?_, ?_, ?_⟩ <;> · simp [calculate_altman_z_score]; decide
  · intro wc ta re oi mve sa
    simp [calculate_altman_z_score]; decide



/-- C7 counterexample: CPython `float` also accepts underscore separators
between digits, so `parse_number "1_5"` returns 15.0 where the claim — the
remainder is parsed as a decimal number, with absence on any non-numeric
remainder — demands absence: the spec sub-contract parser rejects `"1_5"`. -/
theorem parse_number_underscore_cex :
    parse_number "1_5" = some 15 ∧ parseNumber_spec "1_5" = none :=
  ⟨by decide, by decide⟩

/-- C7 amended: `parse_number` strips separators and the currency symbol,
negates a parenthesized literal, and parses the remainder with `float()`,
which accepts decimal and scientific literals with optional underscore
separators between digits; it agrees with the spec's plain decimal
sub-contract on every string free of underscores and of the letters of the
non-finite special forms (`inf`, `infinity`, `nan`), and is absent exactly
where `float()` rejects, as the representative inputs show. -/
theorem parse_number_float_semantics :
    (∀ s : String, (∀ c ∈ s.toList, c ∉ floatSpecialChars) →
      parse_number s = parseNumber_spec s) ∧
    parse_number "1_5" = some 15 ∧
    parse_number "1_234.5" = some (2469 / 2) ∧
    parse_number "1_" = none ∧
    parse_number "_15" = none ∧
    parse_number "1__5" = none ∧
    parse_number "$1,234,567" = some 1234567 ∧
    parse_number "(7)" = some (-7) ∧
    parse_number " 45.2 " = some (226 / 5) ∧
    parse_number "abc" = none ∧
    parse_number "12x" = none := by
  refine ⟨?_, by decide, by decide, by decide, by decide, by decide, by decide,
    by decide, by decide, by decide, by decide⟩
  intro s h
  have hu : '_' ∉ s.toList :=
    fun hx => absurd (by decide : '_' ∈ floatSpecialChars) (h '_' hx)
  simp only [parse_number, parseNumberL, parseNumber_spec]
  have hclean : '_' ∉ trimWs ((s.toList.filter (fun c => c ≠ ',')).filter
      (fun c => c ≠ '$')) := by
    intro hx
    exact hu (List.filter_subset' _ (List.filter_subset' _ (mem_of_mem_trimWs hx)))
  set cleaned := trimWs ((s.toList.filter (fun c => c ≠ ',')).filter (fun c => c ≠ '$'))
    with hcl
  have hcore : '_' ∉ (if cleaned.head? = some '(' ∧ cleaned.getLast? = some ')' then
      (cleaned.drop 1).dropLast else cleaned) := by
    by_cases hn : cleaned.head? = some '(' ∧ cleaned.getLast? = some ')'
    · rw [if_pos hn]
      exact fun hx => hclean (List.drop_subset _ _ (List.dropLast_subset _ hx))
    · rw [if_neg hn]
      exact hclean
  rw [pyFloat_eq_decimalFloat _ hcore]

/-- Witness for C7 amended: the agreement hypothesis discharged at a
concrete parenthesized input free of underscores and special-form letters. -/
theorem parse_number_float_semantics_inst :
    parse_number "(1,234.5)" = parseNumber_spec "(1,234.5)" :=
  parse_number_float_semantics.1 "(1,234.5)" (by decide)

/-- C1: the extractor is all-or-nothing — its result is present exactly when
every one of the seven base field selections is present, and a present
result contains an entry for each of the seven base fields. -/
theorem extractor_all_or_nothing :
    ∀ s : String,
      ((extract_financial_data_from_html s).isSome ↔
        ∀ k : FieldKey, (selectField k (lowerL s.toList)).isSome) ∧
      ∀ m, extract_financial_data_from_html s = some m →
        ∀ k : FieldKey, (List.lookup (fieldName k) m).isSome := by
  intro s
  constructor
  · constructor
    · intro h k
      obtain ⟨m, hm⟩ := Option.isSome_iff_exists.mp h
      obtain ⟨ca, cl, ta, re, oi, tl, sa, h1, h2, h3, h4, h5, h6, h7, _⟩ :=
        (extractL_some_iff s.toList m).mp hm
      cases k <;>
        simp only [h1, h2, h3, h4, h5, h6, h7, Option.isSome_some]
    · intro h
      obtain ⟨ca, h1⟩ := Option.isSome_iff_exists.mp (h .current_assets)
      obtain ⟨cl, h2⟩ := Option.isSome_iff_exists.mp (h .current_liabilities)
      obtain ⟨ta, h3⟩ := Option.isSome_iff_exists.mp (h .total_assets)
      obtain ⟨re, h4⟩ := Option.isSome_iff_exists.mp (h .retained_earnings)
      obtain ⟨oi, h5⟩ := Option.isSome_iff_exists.mp (h .operating_income)
      obtain ⟨tl, h6⟩ := Option.isSome_iff_exists.mp (h .total_liabilities)
      obtain ⟨sa, h7⟩ := Option.isSome_iff_exists.mp (h .sales)
      have : extract_financial_data_from_html s = some
          [("current_assets", ca), ("current_liabilities", cl),
           ("total_assets", ta), ("retained_earnings", re),
           ("operating_income", oi), ("total_liabilities", tl),
           ("sales", sa), ("working_capital", ca - cl)] :=
        (extractL_some_iff s.toList _).mpr
          ⟨ca, cl, ta, re, oi, tl, sa, h1, h2, h3, h4, h5, h6, h7, rfl⟩
      simp [this]
  · intro m hm k
    obtain ⟨ca, cl, ta, re, oi, tl, sa, h1, h2, h3, h4, h5, h6, h7, hmEq⟩ :=
      (extractL_some_iff s.toList m).mp hm
    subst hmEq
    cases k <;> rfl

/-- Witness for C1 at a concrete filing text on which extraction succeeds. -/
theorem extractor_all_or_nothing_inst :
    extract_financial_data_from_html exSeven = some exSevenDict ∧
    (List.lookup "sales" exSevenDict).isSome :=
  ⟨by decide, (extractor_all_or_nothing exSeven).2 exSevenDict (by decide) .sales⟩

/-- C2: for every field, the selected value is `max(values_found)` of the
first label-pattern variant (in listed order) that produced at least one
successfully parsed candidate — later variants are never consulted once a
variant has candidates — and Python's `max` of a non-empty list is a member
and an upper bound; in particular a text in which the label appears twice
with values 100 and 500 and no scale words yields 500. -/
theorem first_variant_max_selection :
    (∀ (k : FieldKey) (t : List Char) (ps1 : List (List (List Char)))
       (p : List (List Char)) (ps2 : List (List (List Char))),
      patternsFor k = ps1 ++ p :: ps2 →
      (∀ q ∈ ps1, valuesFound t q = []) →
      valuesFound t p ≠ [] →
      selectField k t = pyMax (valuesFound t p)) ∧
    (∀ (vs : List ℚ) (m : ℚ), pyMax vs = some m → m ∈ vs ∧ ∀ v ∈ vs, v ≤ m) ∧
    selectField FieldKey.total_assets (lowerL exTwice.toList) = some 500 := by
  refine ⟨?_, ?_, by decide⟩
  · intro k t ps1 p ps2 hk hempty hne
    rw [selectField, hk]
    exact firstVariant_first ps1 p ps2 hempty hne
  · intro vs m h
    exact pyMax_spec h

/-- Witness for C2: the hypotheses of the selection law are discharged on
the concrete two-occurrence text for the single-variant `total_assets`
field. -/
theorem first_variant_max_selection_inst :
    selectField FieldKey.total_assets (lowerL exTwice.toList) =
      pyMax (valuesFound (lowerL exTwice.toList)
        ["total".toList, "assets".toList]) :=
  first_variant_max_selection.1 FieldKey.total_assets (lowerL exTwice.toList)
    [] ["total".toList, "assets".toList] [] rfl (by simp) (by decide)

/-- C6: whenever extraction succeeds, the returned dictionary contains
`working_capital`, and its value is exactly the returned `current_assets`
value minus the returned `current_liabilities` value. -/
theorem working_capital_is_difference :
    ∀ (s : String) (m : List (String × ℚ)),
      extract_financial_data_from_html s = some m →
      (List.lookup "working_capital" m).isSome ∧
      ∀ a b : ℚ, List.lookup "current_assets" m = some a →
        List.lookup "current_liabilities" m = some b →
        List.lookup "working_capital" m = some (a - b) := by
  intro s m hm
  obtain ⟨ca, cl, ta, re, oi, tl, sa, _, _, _, _, _, _, _, hmEq⟩ :=
    (extractL_some_iff s.toList m).mp hm
  subst hmEq
  refine ⟨rfl, ?_⟩
  intro a b ha hb
  have ha2 : some ca = some a := ha
  have hb2 : some cl = some b := hb
  injection ha2 with ha3
  injection hb2 with hb3
  rw [← ha3, ← hb3]
  rfl

/-- Witness for C6 at a concrete successful extraction. -/
theorem working_capital_is_difference_inst :
    List.lookup "working_capital" exSevenDict = some (500 - 200) :=
  (working_capital_is_difference exSeven exSevenDict (by decide)).2 500 200
    (by decide) (by decide)

/-- C10: on a successful extraction every one of the seven base field values
is nonnegative (each candidate is an absolute value), so the derived
`working_capital` entry is the only one that can be negative. -/
theorem base_fields_nonneg :
    ∀ (s : String) (m : List (String × ℚ)),
      extract_financial_data_from_html s = some m →
      ∀ (k : FieldKey) (v : ℚ), List.lookup (fieldName k) m = some v → 0 ≤ v := by
  intro s m hm k v hv
  obtain ⟨ca, cl, ta, re, oi, tl, sa, h1, h2, h3, h4, h5, h6, h7, hmEq⟩ :=
    (extractL_some_iff s.toList m).mp hm
  subst hmEq
  cases k
  case current_assets =>
    have hv2 : some ca = some v := hv
    injection hv2 with hv3
    rw [← hv3]; exact firstVariant_nonneg h1
  case current_liabilities =>
    have hv2 : some cl = some v := hv
    injection hv2 with hv3
    rw [← hv3]; exact firstVariant_nonneg h2
  case total_assets =>
    have hv2 : some ta = some v := hv
    injection hv2 with hv3
    rw [← hv3]; exact firstVariant_nonneg h3
  case retained_earnings =>
    have hv2 : some re = some v := hv
    injection hv2 with hv3
    rw [← hv3]; exact firstVariant_nonneg h4
  case operating_income =>
    have hv2 : some oi = some v := hv
    injection hv2 with hv3
    rw [← hv3]; exact firstVariant_nonneg h5
  case total_liabilities =>
    have hv2 : some tl = some v := hv
    injection hv2 with hv3
    rw [← hv3]; exact firstVariant_nonneg h6
  case sales =>
    have hv2 : some sa = some v := hv
    injection hv2 with hv3
    rw [← hv3]; exact firstVariant_nonneg h7

/-- Witness for C10: on a text whose current liabilities exceed the current
assets, the base fields are still nonnegative while the derived working
capital is negative. -/
theorem base_fields_nonneg_inst :
    (0:ℚ) ≤ 500 ∧ List.lookup "working_capital" exNegWcDict = some (-300) :=
  ⟨base_fields_nonneg exNegWc exNegWcDict (by decide)
      FieldKey.current_liabilities 500 (by decide),
    by decide⟩

/-- C3: evaluation of the code at the spec's own parenthesized-negative test
text.  `parse_number` itself handles `"(234,567)"`, but the greedy `[^\d]*`
filler of the regex consumes the opening parenthesis while the capture class
keeps the closing one, so the captured group is `"234,567)"`, which fails to
parse; the current-liabilities candidate is dropped by both variants, the
field stays absent, and the whole extraction returns `None` instead of the
specified `current_liabilities = 234567`, `working_capital = 1000000`. -/
theorem paren_value_dropped :
    parse_number "(234,567)" = some (-234567) ∧
    parse_number "234,567)" = none ∧
    (scanMatches ["total".toList, "current".toList, "liabilities".toList]
        (lowerL exParen.toList)).map Prod.fst = ["234,567)".toList] ∧
    selectField FieldKey.current_assets (lowerL exParen.toList) = some 1234567 ∧
    selectField FieldKey.current_liabilities (lowerL exParen.toList) = none ∧
    extract_financial_data_from_html exParen = none :=
  ⟨by decide, by decide, by decide, by decide, by decide, by decide⟩

/-- C8 counterexample: on a filing text in which six of the seven fields are
located and every sales variant is absent, the handler returns the 404
"could not retrieve 10-Q filing data" outcome — not a 500 outcome listing
the missing fields, contrary to the claim. -/
theorem partial_extraction_claim_cex :
    selectField FieldKey.sales (lowerL exSix.toList) = none ∧
    ([FieldKey.current_assets, FieldKey.current_liabilities,
      FieldKey.total_assets, FieldKey.retained_earnings,
      FieldKey.operating_income, FieldKey.total_liabilities].all
        (fun k => (selectField k (lowerL exSix.toList)).isSome)) = true ∧
    get_zscore "acme" (some exCik) (some exFiling) exSix (some exStock) =
      Outcome.httpError 404
        "Could not retrieve 10-Q filing data for 'acme'. The company may not have filed a 10-Q recently." :=
  ⟨by decide, by decide, by decide⟩

/-- C8 amended: when extraction locates only some of the seven fields the
extractor collapses to `None`, so the handler surfaces the 404 "could not
retrieve 10-Q filing data" outcome; the 500 `missing_fields` branch checks
its six keys only on a successful extraction result, which always contains
them, so a per-field "extraction incomplete" detail is never produced. -/
theorem partial_extraction_amended :
    (∀ (company : String) (ct : CikTicker) (f : Filing10Q) (t : String)
       (st : Option StockData),
      extract_financial_data_from_html t = none →
      get_zscore company (some ct) (some f) t st =
        Outcome.httpError 404
          ("Could not retrieve 10-Q filing data for '" ++ company ++
            "'. The company may not have filed a 10-Q recently.")) ∧
    (∀ (t : String) (m : List (String × ℚ)),
      extract_financial_data_from_html t = some m →
      required_fields_main.filter (fun k => (List.lookup k m).isNone) = []) := by
  constructor
  · intro company ct f t st hnone
    simp only [get_zscore, get_financial_data_from_10q, hnone]
  · intro t m hm
    obtain ⟨ca, cl, ta, re, oi, tl, sa, _, _, _, _, _, _, _, hmEq⟩ :=
      (extractL_some_iff t.toList m).mp hm
    subst hmEq
    rfl

/-- Witness for C8 amended: the failed extraction on the six-field text
produces the 404 outcome. -/
theorem partial_extraction_amended_inst :
    get_zscore "acme" (some exCik) (some exFiling) exSix none =
      Outcome.httpError 404
        ("Could not retrieve 10-Q filing data for '" ++ "acme" ++
          "'. The company may not have filed a 10-Q recently.") :=
  partial_extraction_amended.1 "acme" exCik exFiling exSix none (by decide)

/-- C9 counterexample: in `"Total assets in millions 2"` no scale word
trails the numeric literal (the word `millions` sits in the filler before
it), yet the selected value is 2000000, not the 2 that a trailing-scale-word
multiplier would give: the code tests substring containment of the scale
word in the whole matched text. -/
theorem scale_word_substring_cex :
    selectField FieldKey.total_assets (lowerL exScaleFiller.toList) = some 2000000 ∧
    selectField FieldKey.total_assets (lowerL exScaleFiller.toList) ≠ some 2 :=
  ⟨by decide, by decide⟩

/-- C9 amended: the multiplier is chosen by substring containment of a scale
word anywhere in the matched text (million ×1e6, else thousand ×1e3, else
billion ×1e9, else ×1, checked in that order) and is applied before the
absolute value; this coincides with the trailing scale word when the scale
word only trails the number, as in `"Total assets $45.2 million"`, which
yields 45200000. -/
theorem scale_multiplier_amended :
    selectField FieldKey.total_assets (lowerL exScale.toList) = some 45200000 ∧
    selectField FieldKey.total_assets (lowerL exScaleFiller.toList) = some 2000000 ∧
    selectField FieldKey.total_assets (lowerL "Total assets 7".toList) = some 7 ∧
    (∀ v : ℚ, applyScale "total assets $45.2 million".toList v = v * 1000000) ∧
    (∀ v : ℚ, applyScale "total assets 7".toList v = v) :=
  ⟨by decide, by decide, by decide, fun _ => rfl, fun _ => rfl⟩
